import Mathlib

/-!
Verification of the query-orchestration core of the threads-geo-tag
extension: the region/profile cache with TTL expiry, the bounded
concurrency task queue, and the `executeQuery` resolver driver.

The JavaScript source is shallowly embedded: `chrome.storage` caches
become association lists threaded through each operation, timestamps
are `Nat` milliseconds, JS `null` is `Option.none`, and a thrown JS
exception is `Except.error`.  The asynchronous dispatch of
`processQueryQueue` is modelled by its synchronous prefix (the code up
to the first `await`), which is how the real function runs when called
from `addToQueryQueue` / `updateMaxConcurrent`; the `finally` block of
a finished task is the separate `completeTask` event.
-/

namespace ThreadsGeoTag

/-- `CACHE_EXPIRY_DAYS = 30` converted to milliseconds, exactly as in
`getCachedRegion`: `CACHE_EXPIRY_DAYS * 24 * 60 * 60 * 1000`. -/
def expiryMs : Nat := 30 * 24 * 60 * 60 * 1000

/-- One entry of the `regionCache` object: `{ region, timestamp }`.
`region` is `Option String` because the code stores the content
script's `region` field unchanged, and that field can be JS `null`. -/
structure RegionEntry where
  region : Option String
  timestamp : Nat
deriving DecidableEq, Repr

/-- One entry of the `profileCache` object: `{ profile, timestamp }`. -/
structure ProfileEntry where
  profile : String
  timestamp : Nat
deriving DecidableEq, Repr

/-- The `regionCache` object held in `chrome.storage.local`, as an
association list from username to entry. -/
def RCache := List (String × RegionEntry)
deriving DecidableEq

/-- The `profileCache` object held in `chrome.storage.local`. -/
def PCache := List (String × ProfileEntry)
deriving DecidableEq

/-- JS property read `cache[username]` (absent property = `none`). -/
def cacheGet {α : Type} (c : List (String × α)) (u : String) : Option α :=
  (c.find? (fun p => p.1 = u)).map (fun p => p.2)

/-- JS property write `cache[username] = e` (replace in place, or add). -/
def cacheSet {α : Type} (c : List (String × α)) (u : String) (e : α) :
    List (String × α) :=
  if c.any (fun p => p.1 = u) then
    c.map (fun p => if p.1 = u then (u, e) else p)
  else
    c ++ [(u, e)]

/-- JS `delete cache[username]`. -/
def cacheErase {α : Type} (c : List (String × α)) (u : String) :
    List (String × α) :=
  c.filter (fun p => p.1 ≠ u)

/-- `getCachedRegion(username)`: returns the JS return value
(`region` string or `null`, merged into `Option String`) together with
the cache as left in storage.  Mirrors the source: a present entry is
returned when `now - cached.timestamp < expiryTime`, otherwise the
entry is deleted and `null` is returned; an absent entry returns
`null`.  (Nat subtraction truncates at 0, which agrees with the JS
comparison `now - ts < expiryTime` also when `now < ts`.) -/
def getCachedRegion (c : RCache) (now : Nat) (u : String) :
    Option String × RCache :=
  match cacheGet c u with
  | none => (none, c)
  | some cached =>
    if now - cached.timestamp < expiryMs then
      (cached.region, c)
    else
      (none, cacheErase c u)

/-- `saveCachedRegion(username, region)`: store
`{ region, timestamp: Date.now() }` under the username. -/
def saveCachedRegion (c : RCache) (u : String) (region : Option String)
    (now : Nat) : RCache :=
  cacheSet c u { region := region, timestamp := now }

/-- `getCachedProfile(username)`: same TTL logic as `getCachedRegion`,
over the profile namespace; returns `{ profile }` (here the string) or
`null`. -/
def getCachedProfile (c : PCache) (now : Nat) (u : String) :
    Option String × PCache :=
  match cacheGet c u with
  | none => (none, c)
  | some cached =>
    if now - cached.timestamp < expiryMs then
      (some cached.profile, c)
    else
      (none, cacheErase c u)

/-- `saveCachedProfile(username, profile)`. -/
def saveCachedProfile (c : PCache) (u : String) (profile : String)
    (now : Nat) : PCache :=
  cacheSet c u { profile := profile, timestamp := now }

/-- Username normalization used throughout the source:
`username.startsWith('@') ? username.slice(1) : username`, phrased
over the string's character list (a one-character prefix test and a
one-character drop). -/
def stripAt (username : String) : String :=
  if username.toList.head? = some '@' then
    String.mk (username.toList.drop 1)
  else
    username

/-! ### Task queue / concurrency governor

Module state of the query manager: `queryQueue` (pending tasks, here
identified by their `username` field, the only field the admission
checks inspect), `activeQueryCount` together with which usernames are
in flight (as a list, so that duplicate in-flight jobs are visible),
and the mutable `queueJobMax`. -/

/-- `queryQueueMax = 30`, the fixed queue capacity. -/
def queryQueueMax : Nat := 30

/-- The queue manager's module-level mutable state. -/
structure QueueState where
  /-- `queryQueue`: pending tasks in FIFO order, by username. -/
  queue : List String
  /-- usernames of tasks currently executing; `activeQueryCount` is
  its length. -/
  active : List String
  /-- `queueJobMax`: the dynamically adjustable concurrency limit. -/
  queueJobMax : Nat
deriving DecidableEq, Repr

/-- `activeQueryCount`. -/
def QueueState.activeQueryCount (s : QueueState) : Nat := s.active.length

/-- The synchronous prefix of `processQueryQueue()` (the code up to
its first `await`): if `activeQueryCount >= queueJobMax` or the queue
is empty, do nothing; otherwise `shift()` the head task and promote it
to active (`activeQueryCount++`).  Each call dispatches at most one
task; further dispatches happen only from later `finally` blocks
(`completeTask`) or later enqueues. -/
def processQueryQueue (s : QueueState) : QueueState :=
  if s.activeQueryCount ≥ s.queueJobMax ∨ s.queue = [] then s
  else
    match s.queue with
    | [] => s
    | t :: rest => { s with queue := rest, active := s.active ++ [t] }

/-- `addToQueryQueue(username, ...)`: reject (`return null`, here
`none`) when `queryQueue.length >= queryQueueMax` or when
`queryQueue.some(task => task.username === username)`; otherwise push
the task and immediately call `processQueryQueue()`.  Note the
duplicate check scans only the pending `queryQueue`, not the active
tasks. -/
def addToQueryQueue (s : QueueState) (username : String) :
    Option QueueState :=
  if s.queue.length ≥ queryQueueMax then none
  else if s.queue.any (fun t => t = username) then none
  else some (processQueryQueue { s with queue := s.queue ++ [username] })

/-- The `finally` block of `processQueryQueue` once a task's `await`
finishes: `activeQueryCount--` (the task leaves the active set) and a
recursive `processQueryQueue()` call to dispatch the next pending
task. -/
def completeTask (s : QueueState) (username : String) : QueueState :=
  processQueryQueue { s with active := s.active.erase username }

/-- The clamped value computed by `updateMaxConcurrent`:
`Math.max(1, Math.min(10, parseInt(value, 10) || 3))`.  The caller's
raw input is abstracted as the result of `parseInt(value, 10)`:
`none` for `NaN`, `some n` otherwise; `NaN || 3` and `0 || 3` are `3`. -/
def newMaxConcurrent (value : Option Int) : Int :=
  let parsed : Int :=
    match value with
    | none => 3
    | some n => if n = 0 then 3 else n
  max 1 (min 10 parsed)

/-- `updateMaxConcurrent(value)`: set `queueJobMax` to the clamped
value, then, `if (queryQueue.length > 0 && activeQueryCount < queueJobMax)`,
call `processQueryQueue()` once. -/
def updateMaxConcurrent (s : QueueState) (value : Option Int) : QueueState :=
  let s' := { s with queueJobMax := (newMaxConcurrent value).toNat }
  if 0 < s'.queue.length ∧ s'.activeQueryCount < s'.queueJobMax then
    processQueryQueue s'
  else
    s'

/-- The empty initial state: `queryQueue = []`, `activeQueryCount = 0`,
`queueJobMax = 3`. -/
def initialQueueState : QueueState :=
  { queue := [], active := [], queueJobMax := 3 }

/-- States of the queue manager reachable from the initial state by
the public operations: a (possibly rejected) enqueue, a task
completion, and a concurrency update. -/
inductive Reachable : QueueState → Prop
  | init : Reachable initialQueueState
  | enqueue {s s' : QueueState} (u : String) :
      Reachable s → addToQueryQueue s u = some s' → Reachable s'
  | complete {s : QueueState} (u : String) :
      Reachable s → Reachable (completeTask s u)
  | update {s : QueueState} (v : Option Int) :
      Reachable s → Reachable (updateMaxConcurrent s v)

/-! ### The resolver: `executeQuery`

`executeQuery(username, shouldKeepTab, keepTabFilter)` drives one
resolution job: an API-interception fast attempt, then the
tab-automation slow path.  Everything the outside world answers
(content-script replies, messaging failures) is packed into an `Env`;
timing (`setTimeout` waits, randomized delays) has no effect on the
returned data and is elided.  A thrown JS exception inside the big
`try` is `Except.error`, carrying the message and whether `newTab` was
non-null at the throw site; the outer `catch` turns it into a
`{success:false}` result. -/

/-- The content script's reply to `queryViaApi`. -/
structure ApiResp where
  success : Bool
  region : Option String
  fallbackNeeded : Bool
deriving DecidableEq, Repr

/-- The content script's reply to `autoQueryRegion` (from the
`content.js` handler): either `{success:true, region}` with `region` a
string or `null`, or `{success:false, error}`. -/
structure AutoResp where
  success : Bool
  region : Option String
  error : Option String
deriving DecidableEq, Repr

/-- What the API-interception attempt observes.  Its enclosing inner
`try/catch` swallows any exception, so every non-success case falls
through to the slow path. -/
inductive ApiPhase
  /-- no open tab on the target site, so no message is sent -/
  | noTab
  /-- `sendMessage('queryViaApi')` settled; `none` is the
  `.catch(() => null)` result -/
  | resp (r : Option ApiResp)
  /-- some step of the API block threw (caught by the inner catch) -/
  | threw (msg : String)
deriving DecidableEq, Repr

/-- What the slow path observes. -/
inductive SlowPhase
  /-- `chrome.tabs.create` rejected: the outer catch runs with
  `newTab` still null -/
  | createThrew (msg : String)
  /-- the tab opened but the content script never answered `ping`
  within the 10 retries: `throw new Error('Content script 未能載入')` -/
  | notReady
  /-- `sendMessage('autoQueryRegion')` settled with this reply
  (`none` = falsy reply) -/
  | resp (r : Option AutoResp)
  /-- `sendMessage('autoQueryRegion')` rejected -/
  | sendThrew (msg : String)
deriving DecidableEq, Repr

/-- The external world as one job sees it. -/
structure Env where
  api : ApiPhase
  slow : SlowPhase
deriving DecidableEq, Repr

/-- What became of the automation tab. -/
inductive TabDisposition
  /-- no tab was ever created (fast-path return, or failure before
  `chrome.tabs.create`) -/
  | noTab
  | closed
  | kept
deriving DecidableEq, Repr

/-- The object `executeQuery` resolves with (fields that a given
branch does not set are `none`). -/
structure QueryResult where
  success : Bool
  region : Option String := none
  fromCache : Option Bool := none
  source : Option String := none
  error : Option String := none
deriving DecidableEq, Repr

/-- JS truthiness of a `String | null | undefined` value: `null`,
`undefined` and `""` are falsy. -/
def jsTruthyStr (s : Option String) : Bool :=
  match s with
  | none => false
  | some s => s ≠ ""

/-- JS `String.prototype.trim()`: strip whitespace from both ends,
phrased over the character list so it is kernel-computable. -/
def jsTrim (s : String) : String :=
  String.mk
    (((s.toList.dropWhile Char.isWhitespace).reverse.dropWhile
        Char.isWhitespace).reverse)

/-- JS `String.prototype.toLowerCase()`, as a per-character lowering
over the character list. -/
def jsToLowerCase (s : String) : String :=
  String.mk (s.toList.map Char.toLower)

/-- Does `needle` occur as a contiguous run inside `haystack`? -/
def includesAux (needle : List Char) : List Char → Bool
  | [] => needle.isEmpty
  | c :: rest => needle.isPrefixOf (c :: rest) || includesAux needle rest

/-- JS `haystack.includes(needle)` (substring containment). -/
def jsIncludes (haystack needle : String) : Bool :=
  includesAux needle.toList haystack.toList

/-- JS `a || b` on a `String | undefined` left operand. -/
def jsOrStr (a : Option String) (b : String) : String :=
  match a with
  | none => b
  | some s => if s = "" then b else s

/-- The tab-close decision of the two failure branches (the
`else` of `response.success` and the outer `catch`):
`shouldCloseTab = !shouldKeepTab`, then with `shouldKeepTab` set and a
non-empty trimmed filter, `shouldCloseTab = false` (a failure counts
as "does not match the filter", keeping the tab). -/
def failureShouldCloseTab (shouldKeepTab : Bool) (keepTabFilter : String) :
    Bool :=
  let shouldCloseTab := !shouldKeepTab
  if shouldKeepTab ∧ keepTabFilter ≠ "" ∧ jsTrim keepTabFilter ≠ "" then
    false
  else
    shouldCloseTab

/-- The fast-path admission test of `executeQuery`:
`apiResponse && apiResponse.success && apiResponse.region &&
!apiResponse.fallbackNeeded`.  Any other outcome of the API attempt
(no tab, falsy reply, `fallbackNeeded`, or a thrown exception caught
by the inner `catch`) falls through to the slow path. -/
def apiFastHit (a : ApiPhase) : Option ApiResp :=
  match a with
  | .resp (some ar) =>
    if ar.success ∧ jsTruthyStr ar.region ∧ ¬ar.fallbackNeeded then
      some ar
    else
      none
  | _ => none

/-- The `try` body of `executeQuery` (after `@`-stripping), returning
the resolved value, the cache as updated, and the tab's fate — or the
JS exception that escaped (message, and whether `newTab` was set). -/
def executeQueryBody (env : Env) (u : String) (shouldKeepTab : Bool)
    (keepTabFilter : String) (cache : RCache) (now : Nat) :
    Except (String × Bool) (QueryResult × RCache × TabDisposition) :=
  -- API interception attempt
  match apiFastHit env.api with
  | some ar =>
    .ok ({ success := true, region := ar.region, fromCache := some false,
           source := some "api_intercept" },
         saveCachedRegion cache u ar.region now, .noTab)
  | none =>
    -- slow path: open a tab, ping, send autoQueryRegion
    match env.slow with
    | .createThrew msg => .error (msg, false)
    | .notReady => .error ("Content script 未能載入", true)
    | .sendThrew msg => .error (msg, true)
    | .resp r =>
      match r with
      | some resp =>
        if resp.success then
          -- success branch: decide tab fate, cache, return
          let filterActive : Bool :=
            shouldKeepTab ∧ keepTabFilter ≠ "" ∧ jsTrim keepTabFilter ≠ ""
          if filterActive then
            match resp.region with
            | none =>
              -- JS: `region.toLowerCase()` on null throws a TypeError
              .error ("Cannot read properties of null (reading 'toLowerCase')",
                      true)
            | some region =>
              let shouldCloseTab :=
                jsIncludes (jsToLowerCase region)
                  (jsToLowerCase (jsTrim keepTabFilter))
              .ok ({ success := true, region := some region,
                     fromCache := some false },
                   saveCachedRegion cache u (some region) now,
                   if shouldCloseTab then .closed else .kept)
          else
            .ok ({ success := true, region := resp.region,
                   fromCache := some false },
                 saveCachedRegion cache u resp.region now,
                 if !shouldKeepTab then .closed else .kept)
        else
          -- failure branch: no cache write
          .ok ({ success := false,
                 error := some (jsOrStr resp.error "未知錯誤") },
               cache,
               if failureShouldCloseTab shouldKeepTab keepTabFilter then
                 .closed
               else .kept)
      | none =>
        .ok ({ success := false, error := some "未知錯誤" },
             cache,
             if failureShouldCloseTab shouldKeepTab keepTabFilter then
               .closed
             else .kept)

/-- `executeQuery`: the `try` body with its outer `catch`, which turns
any thrown exception into `{success: false, error}` after applying the
same keep-on-failure tab policy (when a tab exists). -/
def executeQuery (env : Env) (username : String) (shouldKeepTab : Bool)
    (keepTabFilter : String) (cache : RCache) (now : Nat) :
    QueryResult × RCache × TabDisposition :=
  let u := stripAt username
  match executeQueryBody env u shouldKeepTab keepTabFilter cache now with
  | .ok res => res
  | .error (msg, tabExists) =>
    ({ success := false, error := some msg },
     cache,
     if tabExists then
       if failureShouldCloseTab shouldKeepTab keepTabFilter then .closed
       else .kept
     else .noTab)

/-! ### The orchestrator facade: `queryUserRegion` -/

/-- How `queryUserRegion` answers its caller. -/
inductive QRReturn
  /-- a value returned without going through the queue (cache hit, or
  enqueue rejection) -/
  | immediate (r : QueryResult)
  /-- the promise returned by `addToQueryQueue`: the caller is now
  awaiting a queued/active job -/
  | awaiting
deriving DecidableEq, Repr

/-- `queryUserRegion(username, shouldKeepTab, forceRefresh)` up to the
point where it either returns or hands its caller the queue promise:
strip the `@`; unless `forceRefresh`, consult `getCachedRegion` and on
a non-null region return `{success:true, region, fromCache:true}`;
otherwise call `addToQueryQueue`, and if that returns `null` answer
`{success:false, region:null, fromCache:null}`.  Returns the answer,
the cache as left in storage, and the queue state. -/
def queryUserRegion (cache : RCache) (now : Nat) (qs : QueueState)
    (username : String) (forceRefresh : Bool) :
    QRReturn × RCache × QueueState :=
  let cleanUsername := stripAt username
  let afterCache : Option (Option String) × RCache :=
    if forceRefresh then (none, cache)
    else
      match getCachedRegion cache now cleanUsername with
      | (some region, cache') => (some (some region), cache')
      | (none, cache') => (none, cache')
  match afterCache with
  | (some cachedRegion, cache') =>
    (.immediate { success := true, region := cachedRegion,
                  fromCache := some true }, cache', qs)
  | (none, cache') =>
    match addToQueryQueue qs cleanUsername with
    | none =>
      (.immediate { success := false, region := none, fromCache := none },
       cache', qs)
    | some qs' => (.awaiting, cache', qs')

/-! ### Helper lemmas -/

lemma processQueryQueue_queueJobMax (s : QueueState) :
    (processQueryQueue s).queueJobMax = s.queueJobMax := by
  unfold processQueryQueue
  split
  · rfl
  · cases h : s.queue with
    | nil => simp [h]
    | cons t rest => simp [h]

lemma processQueryQueue_queue_length (s : QueueState) :
    (processQueryQueue s).queue.length ≤ s.queue.length := by
  unfold processQueryQueue
  split
  · exact le_rfl
  · cases h : s.queue with
    | nil => simp [h]
    | cons t rest => simp [h]

lemma processQueryQueue_active_le (s : QueueState)
    (h : s.activeQueryCount ≤ s.queueJobMax) :
    (processQueryQueue s).activeQueryCount ≤ (processQueryQueue s).queueJobMax := by
  unfold processQueryQueue
  split
  · exact h
  · next hg =>
    push_neg at hg
    cases hq : s.queue with
    | nil => exact absurd hq hg.2
    | cons t rest =>
      simp only [hq]
      have hlt := hg.1
      simp only [QueueState.activeQueryCount] at hlt ⊢
      simp only [List.length_append, List.length_singleton]
      omega

lemma cacheGet_cacheSet_self {α : Type} (c : List (String × α)) (u : String)
    (e : α) : cacheGet (cacheSet c u e) u = some e := by
  unfold cacheGet cacheSet
  by_cases hany : c.any (fun p => p.1 = u)
  · simp only [hany, if_true]
    induction c with
    | nil => simp at hany
    | cons p c ih =>
      by_cases hp : p.1 = u
      · simp [List.find?, hp]
      · simp only [List.any_cons, Bool.or_eq_true, decide_eq_true_eq] at hany
        rcases hany with h | h
        · exact absurd h hp
        · simpa [List.find?, hp] using ih (by simpa using h)
  · simp only [hany, if_false]
    induction c with
    | nil => simp [List.find?]
    | cons p c ih =>
      simp only [List.any_cons, Bool.or_eq_true, decide_eq_true_eq,
        not_or] at hany
      simpa [List.find?, hany.1] using ih (by simp [hany.2])

lemma getCachedRegion_hit (c : RCache) (now : Nat) (u : String)
    (r : String) (h : (getCachedRegion c now u).1 = some r) :
    getCachedRegion c now u = (some r, c) := by
  unfold getCachedRegion at h ⊢
  cases hg : cacheGet c u with
  | none => simp [hg] at h
  | some cached =>
    simp only [hg] at h ⊢
    split at h
    · next hfresh => simp only [hfresh, if_true]; exact congrArg (·, c) h
    · next hfresh => simp at h

/-! ### Claims -/

/-- **C10** — concurrency-limit clamping: `updateMaxConcurrent`
computes `Math.max(1, Math.min(10, parseInt(value) || 3))` and
installs it as `queueJobMax`: the result is always in `1..10`; inputs
above 10 clamp to 10; nonzero inputs below 1 clamp to 1; a `NaN` or
`0` parse yields the default 3.  (`processQueryQueue` does not touch
`queueJobMax`, so the installed limit is exactly the clamped value.) -/
theorem C10_concurrency_clamp :
    (∀ v : Option Int, 1 ≤ newMaxConcurrent v ∧ newMaxConcurrent v ≤ 10) ∧
    newMaxConcurrent none = 3 ∧
    newMaxConcurrent (some 0) = 3 ∧
    (∀ n : Int, 10 < n → newMaxConcurrent (some n) = 10) ∧
    (∀ n : Int, n < 1 → n ≠ 0 → newMaxConcurrent (some n) = 1) ∧
    (∀ (s : QueueState) (v : Option Int),
      (updateMaxConcurrent s v).queueJobMax = (newMaxConcurrent v).toNat) := by
  refine ⟨?_, by decide, by decide, ?_, ?_, ?_⟩
  · intro v
    cases v with
    | none => simp [newMaxConcurrent]
    | some n =>
      simp only [newMaxConcurrent]
      split <;> omega
  · intro n hn
    simp only [newMaxConcurrent]
    split <;> omega
  · intro n hn hne
    simp only [newMaxConcurrent]
    split <;> omega
  · intro s v
    unfold updateMaxConcurrent
    dsimp only
    split
    · exact (processQueryQueue_queueJobMax _).trans rfl
    · rfl

/-- Witness for C10 at concrete inputs. -/
theorem C10_concurrency_clamp_witness :
    newMaxConcurrent (some 50) = 10 ∧ newMaxConcurrent (some (-7)) = 1 ∧
    (updateMaxConcurrent initialQueueState (some 50)).queueJobMax = 10 := by
  refine ⟨C10_concurrency_clamp.2.2.2.1 50 (by decide),
          C10_concurrency_clamp.2.2.2.2.1 (-7) (by decide) (by decide), ?_⟩
  have h := C10_concurrency_clamp.2.2.2.2.2 initialQueueState (some 50)
  rw [h]
  decide

/-- **C5** — cache TTL with lazy purge, for both namespaces: an entry
with timestamp `ts` reads back as present exactly when the read
happens strictly less than `expiryMs` (30 days) after `ts`, leaving
the store untouched; a read at `ts + expiryMs` or later deletes the
entry and returns absent (`null`), so `get` never returns stale
data. -/
theorem C5_cache_ttl (c : RCache) (pc : PCache) (u : String)
    (v : Option String) (p : String) (ts now : Nat) :
    (cacheGet c u = some { region := v, timestamp := ts } →
      (now < ts + expiryMs → getCachedRegion c now u = (v, c)) ∧
      (ts + expiryMs ≤ now →
        getCachedRegion c now u = (none, cacheErase c u))) ∧
    (cacheGet pc u = some { profile := p, timestamp := ts } →
      (now < ts + expiryMs → getCachedProfile pc now u = (some p, pc)) ∧
      (ts + expiryMs ≤ now →
        getCachedProfile pc now u = (none, cacheErase pc u))) := by
  constructor
  · intro h
    constructor
    · intro hfresh
      unfold getCachedRegion
      rw [h]
      dsimp only
      rw [if_pos (by have he : expiryMs = 2592000000 := rfl; omega)]
    · intro hold
      unfold getCachedRegion
      rw [h]
      dsimp only
      rw [if_neg (by have he : expiryMs = 2592000000 := rfl; omega)]
  · intro h
    constructor
    · intro hfresh
      unfold getCachedProfile
      rw [h]
      dsimp only
      rw [if_pos (by have he : expiryMs = 2592000000 := rfl; omega)]
    · intro hold
      unfold getCachedProfile
      rw [h]
      dsimp only
      rw [if_neg (by have he : expiryMs = 2592000000 := rfl; omega)]

/-- Witness for C5: a region entry saved at `t = 100` is present one
millisecond before expiry and purged at expiry; same for a profile
entry. -/
theorem C5_cache_ttl_witness :
    getCachedRegion [("u", { region := some "Taiwan", timestamp := 100 })]
      (100 + expiryMs - 1) "u" =
      (some "Taiwan", [("u", { region := some "Taiwan", timestamp := 100 })]) ∧
    getCachedRegion [("u", { region := some "Taiwan", timestamp := 100 })]
      (100 + expiryMs) "u" = (none, []) ∧
    getCachedProfile [("u", { profile := "tags", timestamp := 100 })]
      (100 + expiryMs) "u" = (none, []) := by
  have h1 := (C5_cache_ttl
      [("u", { region := some "Taiwan", timestamp := 100 })] [] "u"
      (some "Taiwan") "tags" 100 (100 + expiryMs - 1)).1 (by rfl)
  have h2 := (C5_cache_ttl
      [("u", { region := some "Taiwan", timestamp := 100 })] [] "u"
      (some "Taiwan") "tags" 100 (100 + expiryMs)).1 (by rfl)
  have h3 := (C5_cache_ttl []
      [("u", { profile := "tags", timestamp := 100 })] "u"
      none "tags" 100 (100 + expiryMs)).2 (by rfl)
  refine ⟨h1.1 (by decide), ?_, ?_⟩
  · have := h2.2 (by decide)
    simpa [cacheErase] using this
  · have := h3.2 (by decide)
    simpa [cacheErase] using this

/-- **C8** — cache-hit short-circuit: with `forceRefresh = false` and
`getCachedRegion` answering a non-null region for the `@`-stripped
username, `queryUserRegion` returns
`{success: true, region, fromCache: true}` at once, leaving the cache
and the queue state untouched — no job is enqueued, so the resolver
pipeline is never invoked. -/
theorem C8_cache_hit_short_circuit (cache : RCache) (now : Nat)
    (qs : QueueState) (username : String) (region : String)
    (h : (getCachedRegion cache now (stripAt username)).1 = some region) :
    queryUserRegion cache now qs username false =
      (.immediate { success := true, region := some region,
                    fromCache := some true }, cache, qs) := by
  have hh := getCachedRegion_hit cache now (stripAt username) region h
  unfold queryUserRegion
  dsimp only
  rw [if_neg (by simp), hh]

/-- Witness for C8: a cached "Taiwan" for `alice` short-circuits
`queryUserRegion("@alice")`. -/
theorem C8_cache_hit_short_circuit_witness :
    queryUserRegion [("alice", { region := some "Taiwan", timestamp := 0 })]
      1 initialQueueState "@alice" false =
      (.immediate { success := true, region := some "Taiwan",
                    fromCache := some true },
       [("alice", { region := some "Taiwan", timestamp := 0 })],
       initialQueueState) :=
  C8_cache_hit_short_circuit _ _ _ _ _ (by decide)

/-- **C1, counterexample** — the claim says an enqueue for a username
whose job is already *active* returns `null`; in the code the
duplicate check scans only the pending `queryQueue`.  Concretely: the
first enqueue of `alice` dispatches her job synchronously (the queue
is empty again, `alice` active); a second enqueue of `alice` is then
*accepted* (returns the promise, not `null`) and immediately
dispatches a second concurrent job for `alice` — two executions, where
the claim requires exactly one and a rejection. -/
theorem C1_counterexample :
    addToQueryQueue initialQueueState "alice" =
      some { queue := [], active := ["alice"], queueJobMax := 3 } ∧
    addToQueryQueue { queue := [], active := ["alice"], queueJobMax := 3 }
        "alice" =
      some { queue := [], active := ["alice", "alice"], queueJobMax := 3 } :=
  ⟨rfl, rfl⟩

/-- **C1, amended** — duplicate suppression applies only while the
first job is *pending*: an enqueue for a username present in
`queryQueue` returns `null`; an enqueue for a username not in
`queryQueue` (even one with an active job) is admitted whenever the
queue is below capacity. -/
theorem C1_amended_duplicate_suppression :
    (∀ (s : QueueState) (u : String), u ∈ s.queue →
      addToQueryQueue s u = none) ∧
    (∀ (s : QueueState) (u : String), u ∉ s.queue →
      s.queue.length < queryQueueMax →
      addToQueryQueue s u =
        some (processQueryQueue { s with queue := s.queue ++ [u] })) := by
  constructor
  · intro s u hu
    unfold addToQueryQueue
    split
    · rfl
    · rw [if_pos]
      simp only [List.any_eq_true, decide_eq_true_eq]
      exact ⟨u, hu, rfl⟩
  · intro s u hu hlen
    unfold addToQueryQueue
    rw [if_neg (by omega), if_neg]
    simp only [List.any_eq_true, decide_eq_true_eq, not_exists, not_and]
    intro x hx hxu
    exact hu (hxu ▸ hx)

/-- Witness for C1 (amended): `bob` pending is rejected; `bob` merely
active is admitted. -/
theorem C1_amended_witness :
    addToQueryQueue { queue := ["bob"], active := [], queueJobMax := 3 }
      "bob" = none ∧
    addToQueryQueue { queue := ["carol"], active := ["bob"], queueJobMax := 3 }
        "bob" =
      some (processQueryQueue
        { queue := ["carol", "bob"], active := ["bob"], queueJobMax := 3 }) :=
  ⟨C1_amended_duplicate_suppression.1 _ "bob" (by decide),
   C1_amended_duplicate_suppression.2 _ "bob" (by decide) (by decide)⟩

/-- **C2, counterexample** — the claim says `activeCount <=
concurrencyLimit` in *every* reachable state, including across
`updateMaxConcurrent` lowering the limit with jobs in flight.  It does
not: with three distinct jobs active under limit 3, lowering the limit
to 1 keeps all three running, reaching a state with
`activeQueryCount = 3 > queueJobMax = 1`. -/
theorem C2_counterexample :
    addToQueryQueue initialQueueState "u1" =
      some { queue := [], active := ["u1"], queueJobMax := 3 } ∧
    addToQueryQueue { queue := [], active := ["u1"], queueJobMax := 3 }
        "u2" =
      some { queue := [], active := ["u1", "u2"], queueJobMax := 3 } ∧
    addToQueryQueue { queue := [], active := ["u1", "u2"], queueJobMax := 3 }
        "u3" =
      some { queue := [], active := ["u1", "u2", "u3"], queueJobMax := 3 } ∧
    updateMaxConcurrent
        { queue := [], active := ["u1", "u2", "u3"], queueJobMax := 3 }
        (some 1) =
      { queue := [], active := ["u1", "u2", "u3"], queueJobMax := 1 } ∧
    Reachable { queue := [], active := ["u1", "u2", "u3"], queueJobMax := 1 } ∧
    ({ queue := [], active := ["u1", "u2", "u3"],
       queueJobMax := 1 } : QueueState).activeQueryCount >
      ({ queue := [], active := ["u1", "u2", "u3"],
         queueJobMax := 1 } : QueueState).queueJobMax := by
  refine ⟨rfl, rfl, rfl, rfl, ?_, by decide⟩
  exact Reachable.update (some 1)
    (Reachable.enqueue "u3"
      (Reachable.enqueue "u2"
        (Reachable.enqueue "u1" Reachable.init rfl) rfl) rfl)

/-- **C2, amended** — the capacity half of the invariant is
unconditional: every reachable state has `queryQueue.length ≤ 30`.
The concurrency half, `activeQueryCount ≤ queueJobMax`, is preserved
by enqueue and by job completion, and by `updateMaxConcurrent`
whenever the new (clamped) limit is at least the current active count;
lowering the limit below the active count leaves in-flight jobs
running, so the bound can be violated until completions catch up (no
new dispatch happens while at or above the limit). -/
theorem C2_amended_invariants :
    (∀ s : QueueState, Reachable s → s.queue.length ≤ queryQueueMax) ∧
    (∀ (s : QueueState) (u : String) (s' : QueueState),
      s.activeQueryCount ≤ s.queueJobMax → addToQueryQueue s u = some s' →
      s'.activeQueryCount ≤ s'.queueJobMax) ∧
    (∀ (s : QueueState) (u : String),
      s.activeQueryCount ≤ s.queueJobMax →
      (completeTask s u).activeQueryCount ≤
        (completeTask s u).queueJobMax) ∧
    (∀ (s : QueueState) (v : Option Int),
      s.activeQueryCount ≤ (newMaxConcurrent v).toNat →
      (updateMaxConcurrent s v).activeQueryCount ≤
        (updateMaxConcurrent s v).queueJobMax) := by
  have hmax : queryQueueMax = 30 := rfl
  have henq : ∀ (s : QueueState) (u : String) (s' : QueueState),
      addToQueryQueue s u = some s' →
      s.queue.length < queryQueueMax ∧
      s' = processQueryQueue { s with queue := s.queue ++ [u] } := by
    intro s u s' heq
    unfold addToQueryQueue at heq
    split at heq
    · exact absurd heq (by simp)
    · next hfull =>
      split at heq
      · exact absurd heq (by simp)
      · exact ⟨by omega, by injection heq with h; exact h.symm⟩
  refine ⟨?_, ?_, ?_, ?_⟩
  · intro s hs
    induction hs with
    | init => decide
    | enqueue u hs heq ih =>
      obtain ⟨hlen, rfl⟩ := henq _ _ _ heq
      calc (processQueryQueue _).queue.length
          ≤ _ := processQueryQueue_queue_length _
        _ ≤ queryQueueMax := by
            simp only [List.length_append, List.length_singleton]
            omega
    | complete u hs ih =>
      calc (completeTask _ u).queue.length
          ≤ _ := processQueryQueue_queue_length _
        _ ≤ queryQueueMax := ih
    | update v hs ih =>
      unfold updateMaxConcurrent
      dsimp only
      split
      · exact le_trans (processQueryQueue_queue_length _) ih
      · exact ih
  · intro s u s' h heq
    obtain ⟨hlen, rfl⟩ := henq _ _ _ heq
    exact processQueryQueue_active_le _ h
  · intro s u h
    refine processQueryQueue_active_le _ ?_
    simp only [QueueState.activeQueryCount] at h ⊢
    calc (s.active.erase u).length ≤ s.active.length :=
          List.length_erase_le u s.active
      _ ≤ s.queueJobMax := h
  · intro s v h
    unfold updateMaxConcurrent
    dsimp only
    split
    · exact processQueryQueue_active_le _ h
    · exact h

/-- Witness for C2 (amended) at concrete inputs. -/
theorem C2_amended_witness :
    initialQueueState.queue.length ≤ queryQueueMax ∧
    ({ queue := [], active := ["a"], queueJobMax := 3 } :
        QueueState).activeQueryCount ≤ 3 ∧
    (completeTask { queue := [], active := ["a"], queueJobMax := 3 }
        "a").activeQueryCount ≤
      (completeTask { queue := [], active := ["a"], queueJobMax := 3 }
        "a").queueJobMax ∧
    (updateMaxConcurrent { queue := [], active := ["a"], queueJobMax := 3 }
        (some 5)).activeQueryCount ≤
      (updateMaxConcurrent { queue := [], active := ["a"], queueJobMax := 3 }
        (some 5)).queueJobMax :=
  ⟨C2_amended_invariants.1 initialQueueState Reachable.init,
   C2_amended_invariants.2.1 initialQueueState "a" _ (by decide) rfl,
   C2_amended_invariants.2.2.1 _ "a" (by decide),
   C2_amended_invariants.2.2.2 _ (some 5) (by decide)⟩

/-- **C3, counterexample** — the claim says raising the limit
dispatches pending jobs *up to the new limit*.  In the code
`updateMaxConcurrent` makes a single `processQueryQueue()` call, which
dispatches exactly one task.  Concretely: with limit 1, one active job
and two pending, raising the limit to 5 dispatches only `b`; `c` stays
pending even though `activeQueryCount = 2 < 5`. -/
theorem C3_counterexample :
    updateMaxConcurrent initialQueueState (some 1) =
      { queue := [], active := [], queueJobMax := 1 } ∧
    addToQueryQueue { queue := [], active := [], queueJobMax := 1 } "a" =
      some { queue := [], active := ["a"], queueJobMax := 1 } ∧
    addToQueryQueue { queue := [], active := ["a"], queueJobMax := 1 } "b" =
      some { queue := ["b"], active := ["a"], queueJobMax := 1 } ∧
    addToQueryQueue { queue := ["b"], active := ["a"], queueJobMax := 1 }
        "c" =
      some { queue := ["b", "c"], active := ["a"], queueJobMax := 1 } ∧
    updateMaxConcurrent
        { queue := ["b", "c"], active := ["a"], queueJobMax := 1 }
        (some 5) =
      { queue := ["c"], active := ["a", "b"], queueJobMax := 5 } ∧
    ({ queue := ["c"], active := ["a", "b"],
       queueJobMax := 5 } : QueueState).queue ≠ [] ∧
    ({ queue := ["c"], active := ["a", "b"],
       queueJobMax := 5 } : QueueState).activeQueryCount <
      ({ queue := ["c"], active := ["a", "b"],
         queueJobMax := 5 } : QueueState).queueJobMax :=
  ⟨rfl, rfl, rfl, rfl, rfl, by simp, by decide⟩

/-- **C3, amended** — raising the limit takes effect immediately and
triggers one immediate dispatch attempt (it does not wait for a
completion event): if pending jobs exist and the active count is below
the new clamped limit, exactly one pending job — the FIFO head — is
promoted to active on the spot; any further pending jobs wait for
later completion or enqueue events. -/
theorem C3_amended_single_dispatch (s : QueueState) (v : Option Int)
    (h : String) (t : List String) (hq : s.queue = h :: t)
    (hlt : s.activeQueryCount < (newMaxConcurrent v).toNat) :
    updateMaxConcurrent s v =
      { queue := t, active := s.active ++ [h],
        queueJobMax := (newMaxConcurrent v).toNat } := by
  have hlt' : s.active.length < (newMaxConcurrent v).toNat := by
    simpa [QueueState.activeQueryCount] using hlt
  unfold updateMaxConcurrent
  dsimp only
  rw [if_pos]
  · unfold processQueryQueue
    rw [if_neg]
    · simp only [hq]
    · simp only [QueueState.activeQueryCount, hq, not_or]
      exact ⟨by simpa using hlt', by simp⟩
  · exact ⟨by simp [hq],
      by simpa [QueueState.activeQueryCount] using hlt⟩

/-- Witness for C3 (amended): raising the limit from 1 to 5 with two
pending jobs dispatches exactly the head `b`. -/
theorem C3_amended_witness :
    updateMaxConcurrent
        { queue := ["b", "c"], active := ["a"], queueJobMax := 1 }
        (some 5) =
      { queue := ["c"], active := ["a"] ++ ["b"], queueJobMax := 5 } :=
  C3_amended_single_dispatch _ (some 5) "b" ["c"] rfl (by decide)

lemma getCachedRegion_after_save (c : RCache) (u : String)
    (v : Option String) (now : Nat) :
    getCachedRegion (saveCachedRegion c u v now) now u =
      (v, saveCachedRegion c u v now) := by
  unfold getCachedRegion saveCachedRegion
  rw [cacheGet_cacheSet_self]
  dsimp only
  rw [if_pos (by have he : expiryMs = 2592000000 := rfl; omega)]

/-- Cache effect of every normally-returning run of the `executeQuery`
body: a `success: true` return has written exactly
`saveCachedRegion(u, result.region)`; a `success: false` return has
left the cache untouched. -/
lemma executeQueryBody_cache (env : Env) (u : String) (kt : Bool)
    (f : String) (cache : RCache) (now : Nat) (q : QueryResult)
    (c2 : RCache) (d : TabDisposition)
    (h : executeQueryBody env u kt f cache now = .ok (q, c2, d)) :
    (q.success = true → c2 = saveCachedRegion cache u q.region now) ∧
    (q.success = false → c2 = cache) := by
  unfold executeQueryBody at h
  cases happi : apiFastHit env.api with
  | some ar =>
    rw [happi] at h
    simp only [Except.ok.injEq, Prod.mk.injEq] at h
    obtain ⟨rfl, rfl, rfl⟩ := h
    exact ⟨fun _ => rfl, fun hc => by simp at hc⟩
  | none =>
    rw [happi] at h
    cases hs : env.slow with
    | createThrew m => rw [hs] at h; simp at h
    | notReady => rw [hs] at h; simp at h
    | sendThrew m => rw [hs] at h; simp at h
    | resp r =>
      rw [hs] at h
      cases r with
      | none =>
        simp only [Except.ok.injEq, Prod.mk.injEq] at h
        obtain ⟨rfl, rfl, rfl⟩ := h
        exact ⟨fun hc => by simp at hc, fun _ => rfl⟩
      | some resp =>
        dsimp only at h
        by_cases hsucc : resp.success
        · rw [if_pos (by simp [hsucc])] at h
          split at h
          · split at h
            · simp at h
            · next region hr =>
              simp only [Except.ok.injEq, Prod.mk.injEq] at h
              obtain ⟨rfl, rfl, rfl⟩ := h
              refine ⟨fun _ => ?_, fun hc => by simp at hc⟩
              simp [hr]
          · simp only [Except.ok.injEq, Prod.mk.injEq] at h
            obtain ⟨rfl, rfl, rfl⟩ := h
            exact ⟨fun _ => rfl, fun hc => by simp at hc⟩
        · rw [if_neg (by simp [hsucc])] at h
          simp only [Except.ok.injEq, Prod.mk.injEq] at h
          obtain ⟨rfl, rfl, rfl⟩ := h
          exact ⟨fun hc => by simp at hc, fun _ => rfl⟩

/-- **C6** — write-through on success only: whatever the environment
does, if `executeQuery` returns `success: true` then the cache now
holds exactly the entry `{region: result.region, timestamp: now}` for
the normalized username (written before the return), and an immediate
`getCachedRegion` re-read yields that region; if it returns
`success: false` (failure reply or caught exception), the cache is
byte-for-byte unchanged, so a later read behaves as before — failures
are never cached. -/
theorem C6_write_through_on_success_only (env : Env) (username : String)
    (kt : Bool) (f : String) (cache : RCache) (now : Nat)
    (res : QueryResult) (cache' : RCache) (tab : TabDisposition)
    (heq : executeQuery env username kt f cache now = (res, cache', tab)) :
    (res.success = true →
      cache' = saveCachedRegion cache (stripAt username) res.region now ∧
      (getCachedRegion cache' now (stripAt username)).1 = res.region) ∧
    (res.success = false → cache' = cache) := by
  unfold executeQuery at heq
  dsimp only at heq
  cases hbody : executeQueryBody env (stripAt username) kt f cache now with
  | error e =>
    obtain ⟨msg, tabE⟩ := e
    rw [hbody] at heq
    dsimp only at heq
    simp only [Prod.mk.injEq] at heq
    obtain ⟨rfl, rfl, rfl⟩ := heq
    exact ⟨fun hc => by simp at hc, fun _ => rfl⟩
  | ok r =>
    rw [hbody] at heq
    dsimp only at heq
    subst heq
    have hc := executeQueryBody_cache env (stripAt username) kt f cache now
      res cache' tab hbody
    refine ⟨fun hsucc => ⟨hc.1 hsucc, ?_⟩, hc.2⟩
    rw [hc.1 hsucc]
    exact congrArg Prod.fst (getCachedRegion_after_save _ _ _ _)

/-- Witness for C6: a slow-path success writes through and re-reads;
a slow-path failure leaves the empty cache empty. -/
theorem C6_write_through_witness :
    executeQuery
        ⟨.noTab, .resp (some { success := true, region := some "Taiwan",
                               error := none })⟩
        "x" false "" [] 7 =
      ({ success := true, region := some "Taiwan", fromCache := some false },
       [("x", { region := some "Taiwan", timestamp := 7 })], .closed) ∧
    [("x", { region := some "Taiwan", timestamp := 7 })] =
      saveCachedRegion [] (stripAt "x") (some "Taiwan") 7 ∧
    (getCachedRegion [("x", { region := some "Taiwan", timestamp := 7 })]
        7 (stripAt "x")).1 = some "Taiwan" ∧
    (executeQuery ⟨.noTab, .resp (some { success := false, region := none,
                                         error := some "boom" })⟩
        "x" false "" [] 7).2.1 = ([] : RCache) := by
  have h1 : executeQuery
      ⟨.noTab, .resp (some { success := true, region := some "Taiwan",
                             error := none })⟩
      "x" false "" [] 7 =
      ({ success := true, region := some "Taiwan", fromCache := some false },
       [("x", { region := some "Taiwan", timestamp := 7 })], .closed) := by
    decide
  have h2 := C6_write_through_on_success_only _ "x" false "" [] 7 _ _ _ h1
  have h3 : executeQuery
      ⟨.noTab, .resp (some { success := false, region := none,
                             error := some "boom" })⟩
      "x" false "" [] 7 =
      ({ success := false, error := some "boom" }, ([] : RCache), .closed) := by
    decide
  have h4 := C6_write_through_on_success_only _ "x" false "" [] 7 _ _ _ h3
  exact ⟨h1, (h2.1 rfl).1, (h2.1 rfl).2, h3 ▸ h4.2 rfl⟩

/-- The environment of the undisclosed-field scenario: the content
script answers `queryViaApi` with
`{success: true, region: null, fallbackNeeded: true}` (no user-id
mapping), and answers `autoQueryRegion` with
`{success: true, region: null}` (the "Based in" field was not found
after the bounded retries). -/
def envUndisclosed : Env :=
  { api := .resp (some { success := true, region := none,
                         fallbackNeeded := true }),
    slow := .resp (some { success := true, region := none,
                          error := none }) }

/-- **C4, counterexample** — the undisclosed case does resolve as
`{success: true, region: null}` and is not an error, but the value
written to the region cache is the JS `null` itself
(`{region: null, timestamp}`), not the string sentinel
`"undisclosed"`: no entry of the resulting cache carries
`"undisclosed"`. -/
theorem C4_counterexample :
    executeQuery envUndisclosed "bob" false "" [] 1000 =
      ({ success := true, region := none, fromCache := some false },
       [("bob", { region := none, timestamp := 1000 })], .closed) ∧
    (cacheGet [("bob", ({ region := none, timestamp := 1000 } : RegionEntry))]
        "bob").map (fun e => e.region) = some none ∧
    some (none : Option String) ≠ some (some "undisclosed") := by
  exact ⟨by decide, by decide, by simp⟩

/-- **C4, amended** — for a username whose fast path falls back (any
API-phase outcome other than a fast hit) and whose slow path ends
without finding the "Based in" field, `executeQuery` resolves
`{success: true, region: null}` — a success, not an error — and writes
the cache entry `{region: null, timestamp: now}` for the username (JS
`null`, not an `"undisclosed"` sentinel string); a subsequent
`getCachedRegion` read of that entry returns `null`, which callers
such as `queryUserRegion` cannot distinguish from a cache miss. -/
theorem C4_amended_undisclosed (api : ApiPhase) (username : String)
    (cache : RCache) (now : Nat) (err : Option String)
    (hapi : apiFastHit api = none) :
    executeQuery
        ⟨api, .resp (some { success := true, region := none, error := err })⟩
        username false "" cache now =
      ({ success := true, region := none, fromCache := some false },
       saveCachedRegion cache (stripAt username) none now, .closed) ∧
    (getCachedRegion (saveCachedRegion cache (stripAt username) none now)
        now (stripAt username)).1 = none := by
  constructor
  · unfold executeQuery executeQueryBody
    dsimp only
    rw [hapi]
    dsimp only
    rfl
  · exact congrArg Prod.fst (getCachedRegion_after_save _ _ _ _)

/-- Witness for C4 (amended) at a fully concrete input. -/
theorem C4_amended_witness :
    executeQuery
        ⟨.noTab, .resp (some { success := true, region := none,
                               error := none })⟩
        "bob" false "" [] 5 =
      ({ success := true, region := none, fromCache := some false },
       saveCachedRegion [] (stripAt "bob") none 5, .closed) ∧
    (getCachedRegion (saveCachedRegion [] (stripAt "bob") none 5)
        5 (stripAt "bob")).1 = none :=
  C4_amended_undisclosed .noTab "bob" [] 5 none rfl

/-- **C7** — keep-tab disposition under `shouldKeepTab = true` and a
filter whose trimmed form is non-empty: a successful resolution with a
string region closes the automation tab exactly when the
lower-cased region contains the lower-cased trimmed filter as a
substring, and keeps it open otherwise; a failure reply, a falsy
reply, a never-ready content script, or a thrown send all keep the
tab open (failure counts as non-matching). -/
theorem C7_keep_tab_disposition (api : ApiPhase) (u f : String)
    (cache : RCache) (now : Nat)
    (hapi : apiFastHit api = none) (hf : f ≠ "") (hft : jsTrim f ≠ "") :
    (∀ (region : String) (err : Option String),
      (executeQuery
          ⟨api, .resp (some { success := true, region := some region,
                              error := err })⟩
          u true f cache now).2.2 =
        if jsIncludes (jsToLowerCase region) (jsToLowerCase (jsTrim f))
        then .closed else .kept) ∧
    (∀ (r0 err : Option String),
      (executeQuery
          ⟨api, .resp (some { success := false, region := r0,
                              error := err })⟩
          u true f cache now).2.2 = .kept) ∧
    (executeQuery ⟨api, .resp none⟩ u true f cache now).2.2 = .kept ∧
    (executeQuery ⟨api, .notReady⟩ u true f cache now).2.2 = .kept ∧
    (∀ m, (executeQuery ⟨api, .sendThrew m⟩ u true f cache now).2.2 =
      .kept) := by
  refine ⟨?_, ?_, ?_, ?_, ?_⟩
  · intro region err
    simp [executeQuery, executeQueryBody, hapi, hf, hft]
  · intro r0 err
    simp [executeQuery, executeQueryBody, hapi, hf, hft,
      failureShouldCloseTab]
  · simp [executeQuery, executeQueryBody, hapi, hf, hft,
      failureShouldCloseTab]
  · simp [executeQuery, executeQueryBody, hapi, hf, hft,
      failureShouldCloseTab]
  · intro m
    simp [executeQuery, executeQueryBody, hapi, hf, hft,
      failureShouldCloseTab]

/-- Witness for C7: filter "Taiwan"; "China" keeps the tab,
"Taiwan, ROC" closes it, and a script-not-ready failure keeps it. -/
theorem C7_keep_tab_witness :
    (executeQuery
        ⟨.noTab, .resp (some { success := true, region := some "China",
                               error := none })⟩
        "x" true "Taiwan" [] 0).2.2 = .kept ∧
    (executeQuery
        ⟨.noTab, .resp (some { success := true,
                               region := some "Taiwan, ROC",
                               error := none })⟩
        "x" true "Taiwan" [] 0).2.2 = .closed ∧
    (executeQuery ⟨.noTab, .notReady⟩ "x" true "Taiwan" [] 0).2.2 =
      .kept := by
  have h := C7_keep_tab_disposition .noTab "x" "Taiwan" [] 0 rfl
    (by decide) (by decide)
  refine ⟨?_, ?_, h.2.2.2.1⟩
  · rw [h.1 "China" none]
    decide
  · rw [h.1 "Taiwan, ROC" none]
    decide

/-- **C9** — job-failure isolation: (a) any JS exception escaping the
`try` body of `executeQuery` is caught at the job boundary and
converted into the returned value `{success: false, error: message}`,
so `task.resolve(result)` settles the job's promise with a result and
nothing throws past the orchestrator into the dispatch loop; (b) in
the `finally` block of `processQueryQueue`, the finished task leaves
the active set (`activeQueryCount--`) and — the queue being non-empty
and the remaining active count below the limit — the next pending job
is dispatched at once, so one job's failure never stalls the queue. -/
theorem C9_job_failure_isolation :
    (∀ (env : Env) (username : String) (kt : Bool) (f : String)
        (cache : RCache) (now : Nat) (msg : String) (tabExists : Bool),
      executeQueryBody env (stripAt username) kt f cache now =
        .error (msg, tabExists) →
      (executeQuery env username kt f cache now).1 =
        { success := false, error := some msg }) ∧
    (∀ (s : QueueState) (u h : String) (t : List String),
      u ∈ s.active → s.queue = h :: t →
      s.active.length ≤ s.queueJobMax →
      completeTask s u =
        { queue := t, active := s.active.erase u ++ [h],
          queueJobMax := s.queueJobMax }) := by
  constructor
  · intro env username kt f cache now msg tabExists hbody
    unfold executeQuery
    dsimp only
    rw [hbody]
  · intro s u h t hu hq hle
    have herase : (s.active.erase u).length = s.active.length - 1 :=
      List.length_erase_of_mem hu
    have hpos : 0 < s.active.length := List.length_pos_of_mem hu
    unfold completeTask processQueryQueue
    rw [if_neg]
    · simp only [hq]
    · simp only [QueueState.activeQueryCount, hq, not_or]
      refine ⟨?_, by simp⟩
      simp only [herase]
      omega

/-- Witness for C9: a content-script-never-ready exception resolves
as a failure result, and completing `a` with `b` pending dispatches
`b` immediately. -/
theorem C9_job_failure_isolation_witness :
    (executeQuery ⟨.noTab, .notReady⟩ "x" false "" [] 0).1 =
      { success := false, error := some "Content script 未能載入" } ∧
    completeTask { queue := ["b"], active := ["a"], queueJobMax := 3 }
        "a" =
      { queue := [], active := (["a"].erase "a") ++ ["b"],
        queueJobMax := 3 } :=
  ⟨C9_job_failure_isolation.1 _ "x" false "" [] 0 _ true rfl,
   C9_job_failure_isolation.2 _ "a" "b" [] (by decide) rfl (by decide)⟩

end ThreadsGeoTag
